import Mathlib

/-!
Verification of the time-normalization, recurrence-descriptor and
event-submission logic of the delaware-gop-events repository.

The TypeScript code manipulates JavaScript `Date` values, which are instants
on a linear time scale (milliseconds since the Unix epoch).  Every code path
modelled here produces whole minutes, so an instant is embedded as an `Int`
counting minutes since the Unix epoch.  `Date.UTC` and the `getUTC*` /
`setUTC*` accessors are modelled by the proleptic-Gregorian conversions
`daysFromCivil` / `civilFromDays` (the civil-from-days / days-from-civil
algorithms, matching ECMAScript MakeDay/YearFromTime etc.).  `setUTCMinutes`,
`setUTCHours` and `setUTCDate` applied as in the source
(`d.setUTCMinutes(d.getUTCMinutes() + v)` and so on) are linear shifts of the
underlying instant by `v`, `60 * v` and `1440 * v` minutes respectively,
because ECMAScript MakeDay and MakeTime are linear in the day, hour and
minute arguments; that linearity is mirrored here directly.
-/

namespace DelawareEvents

/-- Days since 1970-01-01 of the civil date `(y, m, d)` with `m` 1-based,
proleptic Gregorian calendar (Hinnant's days-from-civil algorithm, the
arithmetic behind ECMAScript MakeDay). -/
def daysFromCivil (y m d : Int) : Int :=
  let y := y - (if m <= 2 then 1 else 0)
  let era := (if y >= 0 then y else y - 399) / 400
  let yoe := y - era * 400
  let mp := (m + 9) % 12
  let doy := (153 * mp + 2) / 5 + d - 1
  let doe := yoe * 365 + yoe / 4 - yoe / 100 + doy
  era * 146097 + doe - 719468

/-- Civil date `(year, month 1-based, day)` of a count of days since
1970-01-01 (Hinnant's civil-from-days algorithm, the arithmetic behind the
ECMAScript `getUTCFullYear` / `getUTCMonth` / `getUTCDate` accessors). -/
def civilFromDays (z : Int) : Int × Int × Int :=
  let z := z + 719468
  let era := (if z >= 0 then z else z - 146096) / 146097
  let doe := z - era * 146097
  let yoe := (doe - doe / 1460 + doe / 36524 - doe / 146096) / 365
  let y := yoe + era * 400
  let doy := doe - (365 * yoe + yoe / 4 - yoe / 100)
  let mp := (5 * doy + 2) / 153
  let d := doy - (153 * mp + 2) / 5 + 1
  let m := mp + (if mp < 10 then 3 else -9)
  (y + (if m <= 2 then 1 else 0), m, d)

/-- Model of `Date.UTC(year, month, day, hours, minutes, 0, 0)` in minutes
since the Unix epoch.  `month` is 0-based as in JavaScript; out-of-range
month, day, hour and minute arguments are normalized exactly as ECMAScript
MakeDay/MakeTime normalize them (months by floored division into years, the
rest linearly). -/
def dateUTC (year month day hours minutes : Int) : Int :=
  let ym := year + Int.fdiv month 12
  let mn := Int.emod month 12
  (daysFromCivil ym (mn + 1) 1 + (day - 1)) * 1440 + hours * 60 + minutes

/-- Model of `getUTCFullYear` of an instant (minutes since epoch). -/
def getUTCFullYear (ts : Int) : Int := (civilFromDays (Int.fdiv ts 1440)).1

/-- Model of `getUTCMonth` of an instant — 0-based as in JavaScript. -/
def getUTCMonth (ts : Int) : Int := (civilFromDays (Int.fdiv ts 1440)).2.1 - 1

/-- Model of `getUTCDate` (day of month) of an instant. -/
def getUTCDate (ts : Int) : Int := (civilFromDays (Int.fdiv ts 1440)).2.2

/-- Model of `getUTCHours` of an instant. -/
def getUTCHours (ts : Int) : Int := Int.fdiv (Int.emod ts 1440) 60

/-- Model of `getUTCMinutes` of an instant. -/
def getUTCMinutes (ts : Int) : Int := Int.emod (Int.emod ts 1440) 60

/-- The local calendar triple `(getFullYear(), getMonth(), getDate())` that
`calculateEndDate` extracts from the submitted start date; `month0` is
0-based as returned by JavaScript `getMonth()`. -/
structure LocalDate where
  year : Int
  month0 : Int
  day : Int
deriving Repr, DecidableEq

/-- The `durationUnit` enum of `eventInputSchema` in `src/server/routers.ts`. -/
inductive DurationUnit
  | minutes
  | hours
  | days
deriving Repr, DecidableEq

/-- Embedding of `calculateEndDate` from `src/server/routers.ts` (lines 93-149).

The clock string `startTime` is modelled by its parsed `(hours, minutes)`
pair — the source computes the pair with `startTime.split(':').map(Number)`;
`none` covers an absent or empty string, for which the source keeps
`hours = minutes = 0`.  `userTimezoneOffset ?? new Date().getTimezoneOffset()`
is modelled by the explicit `systemTzOffset` parameter.  The guard
`durationValue && durationUnit` uses JavaScript truthiness, under which a
duration value of `0` is falsy, hence the explicit `v = 0` test. -/
def calculateEndDate (startDate : LocalDate) (startTime : Option (Int × Int))
    (durationValue : Option Int) (durationUnit : Option DurationUnit)
    (userTimezoneOffset : Option Int) (systemTzOffset : Int) : Int :=
  let tzOffset := userTimezoneOffset.getD systemTzOffset
  let hm := startTime.getD (0, 0)
  let utcDate := dateUTC startDate.year startDate.month0 startDate.day hm.1 hm.2
  let utcDate := utcDate + tzOffset
  match durationValue, durationUnit with
  | some v, some u =>
    if v = 0 then utcDate
    else
      match u with
      | DurationUnit.minutes => utcDate + v
      | DurationUnit.hours => utcDate + v * 60
      | DurationUnit.days => utcDate + v * 1440
  | _, _ => utcDate

example : daysFromCivil 1970 1 1 = 0 := by decide

example : civilFromDays 0 = (1970, 1, 1) := by decide

example : dateUTC 2025 0 15 14 0 + 300 = dateUTC 2025 0 15 19 0 := by decide

/-- The local calendar fields `(getFullYear(), getMonth(), getDate())` of an
instant, as read by a process whose `getTimezoneOffset()` is `sysTz` minutes
(ECMAScript LocalTime: local wall clock = UTC instant minus the offset). -/
def localDateOf (ts sysTz : Int) : LocalDate :=
  let c := civilFromDays (Int.fdiv (ts - sysTz) 1440)
  ⟨c.1, c.2.1 - 1, c.2.2⟩

/-- The `role` enum of the `users` table in `src/drizzle/schema.ts`. -/
inductive Role
  | user
  | representative
  | admin
deriving Repr, DecidableEq

/-- The `eventType` enum of the `events` table. -/
inductive EventTypeKind
  | fundraiser
  | rally
  | meeting
  | training
  | social
  | other
deriving Repr, DecidableEq

/-- The `visibility` enum of the `events` table. -/
inductive Visibility
  | publicV
  | privateV
  | members
deriving Repr, DecidableEq

/-- The `status` enum of the `events` table. -/
inductive Status
  | pending
  | approved
  | rejected
deriving Repr, DecidableEq

/-- The tRPC request context: `ctx.user` is `none` for an anonymous public
caller, otherwise the caller's `(id, role)` pair. -/
structure Ctx where
  user : Option (Int × Role)
deriving Repr, DecidableEq

/-- The fields of `eventInputSchema` (`src/server/routers.ts` lines 26-51)
used by the submission path.  Dates are instants in minutes since epoch;
`startTime` is the parsed clock pair as in `calculateEndDate`.  The opaque
pass-through strings (`locationAddress`, coordinates, organizer phone/url,
`eventUrl`, `imageUrl`) are omitted: the handler copies them into the record
unchanged and no claim mentions them. -/
structure EventInput where
  name : String
  description : String
  startDate : Int
  endDate : Option Int
  startTime : Option (Int × Int)
  isAllDay : Int
  durationValue : Option Int
  durationUnit : Option DurationUnit
  userTimezoneOffset : Option Int
  location : String
  organizerName : String
  organizerEmail : String
  eventType : EventTypeKind
  visibility : Visibility
  isRecurring : Int
  recurringPattern : Option String
  recurringMonths : Option String
deriving Repr, DecidableEq

/-- A persisted row of the `events` table (the fields the claims are about). -/
structure EventRecord where
  id : Nat
  name : String
  description : String
  startDate : Int
  endDate : Option Int
  location : String
  organizerName : String
  organizerEmail : String
  eventType : EventTypeKind
  visibility : Visibility
  isRecurring : Int
  recurringPattern : Option String
  recurringMonths : Option String
  status : Status
  submittedBy : Option Int
  submittedAt : Int
  approvedBy : Option Int
  approvedAt : Option Int
  rejectionReason : Option String
deriving Repr, DecidableEq

/-- Result of `events.submit`. -/
structure SubmitResult where
  id : Nat
  status : Status
deriving Repr, DecidableEq

/-- Embedding of the check `ctx.user?.role === "representative" || ctx.user?.role === "admin"` at `src/server/routers.ts` line 204. -/
def isRepresentative (ctx : Ctx) : Bool :=
  match ctx.user with
  | some (_, Role.representative) => true
  | some (_, Role.admin) => true
  | _ => false

/-- The `endDate` computed by `events.submit` (line 207-209):
`input.durationValue && input.durationUnit ? calculateEndDate(...) :
input.endDate`, where a duration value of `0` is falsy.  The handler
decomposes `input.startDate` with the process-local `getFullYear()` etc.,
modelled by `localDateOf` at the server offset `sysTz`. -/
def submitEndDate (input : EventInput) (sysTz : Int) : Option Int :=
  match input.durationValue, input.durationUnit with
  | some v, some u =>
    if v = 0 then input.endDate
    else
      some (calculateEndDate (localDateOf input.startDate sysTz) input.startTime
        (some v) (some u) input.userTimezoneOffset sysTz)
  | _, _ => input.endDate

/-- The record built and inserted by `events.submit`
(`src/server/routers.ts` lines 198-228); `now` models `new Date()`, `freshId`
the autoincrement id assigned by `createEvent`. -/
def submittedRecord (ctx : Ctx) (input : EventInput) (now sysTz : Int)
    (freshId : Nat) : EventRecord :=
  let userId := ctx.user.map Prod.fst
  let isRep := isRepresentative ctx
  { id := freshId
    name := input.name
    description := input.description
    startDate := input.startDate
    endDate := submitEndDate input sysTz
    location := input.location
    organizerName := input.organizerName
    organizerEmail := input.organizerEmail
    eventType := input.eventType
    visibility := input.visibility
    isRecurring := input.isRecurring
    recurringPattern := input.recurringPattern
    recurringMonths := input.recurringMonths
    status := if isRep then Status.approved else Status.pending
    submittedBy := userId
    submittedAt := now
    approvedBy := if isRep then userId else none
    approvedAt := if isRep then some now else none
    rejectionReason := none }

/-- Embedding of `events.submit`: inserts exactly one record into the store (modelled as
the list of persisted rows, the fresh id being the row count) and returns
its id and status. -/
def eventsSubmit (state : List EventRecord) (ctx : Ctx) (input : EventInput)
    (now sysTz : Int) : List EventRecord × SubmitResult :=
  let record := submittedRecord ctx input now sysTz state.length
  (state ++ [record], ⟨record.id, record.status⟩)

/-- Embedding of `getEventById` from `src/server/db.ts`: first row with the given id. -/
def getEventById (state : List EventRecord) (id : Nat) : Option EventRecord :=
  state.find? (fun r => r.id = id)

/-- Error codes thrown by the routers via `TRPCError`. -/
inductive TrpcError
  | notFound
  | forbidden
  | unauthorized
deriving Repr, DecidableEq

/-- Embedding of `events.getById` (`src/server/routers.ts` lines 188-196): throws
`NOT_FOUND` when the row is missing or its status is not `approved`. -/
def eventsGetById (state : List EventRecord) (id : Nat) :
    Except TrpcError EventRecord :=
  match getEventById state id with
  | none => Except.error TrpcError.notFound
  | some event =>
    if event.status = Status.approved then Except.ok event
    else Except.error TrpcError.notFound

/-- Embedding of `approveEvent` from `src/server/db.ts` (lines 438-444): an `updateEvent`
that sets `status`, `approvedBy` and `approvedAt` and touches nothing else. -/
def approveEvent (r : EventRecord) (approvedBy now : Int) : EventRecord :=
  { r with
    status := Status.approved
    approvedBy := some approvedBy
    approvedAt := some now }

/-- Embedding of `rejectEvent` from `src/server/db.ts` (lines 446-453): an `updateEvent`
that sets `status`, `approvedBy`, `approvedAt` and `rejectionReason`. -/
def rejectEvent (r : EventRecord) (approvedBy now : Int) (reason : String) :
    EventRecord :=
  { r with
    status := Status.rejected
    approvedBy := some approvedBy
    approvedAt := some now
    rejectionReason := some reason }

/-- The fields of `updateEventSchema` (`src/server/routers.ts` lines 53-71)
restricted to the modelled record fields; `none` models an omitted field,
which the update loop skips (`if value !== undefined`). -/
structure EventUpdate where
  name : Option String
  description : Option String
  startDate : Option Int
  endDate : Option Int
  location : Option String
  organizerName : Option String
  organizerEmail : Option String
  eventType : Option EventTypeKind
  visibility : Option Visibility
deriving Repr, DecidableEq

/-- Applying `updateEvent` with an `updateEventSchema` payload
(`events.update` / `events.updateOwn`): every supplied field overwrites the
stored one, every omitted field is left alone.  The schema contains none of
`status`, `approvedBy`, `approvedAt`, `rejectionReason`, `isRecurring`,
`recurringPattern`, `recurringMonths`. -/
def applyEventUpdate (r : EventRecord) (u : EventUpdate) : EventRecord :=
  { r with
    name := u.name.getD r.name
    description := u.description.getD r.description
    startDate := u.startDate.getD r.startDate
    endDate := match u.endDate with
      | some e => some e
      | none => r.endDate
    location := u.location.getD r.location
    organizerName := u.organizerName.getD r.organizerName
    organizerEmail := u.organizerEmail.getD r.organizerEmail
    eventType := u.eventType.getD r.eventType
    visibility := u.visibility.getD r.visibility }

/-- The spec's event-record invariant (§3): `approvedBy`/`approvedAt` set
iff the status is approved or rejected, `rejectionReason` set iff the status
is rejected. -/
def moderationInvariant (r : EventRecord) : Prop :=
  ((r.approvedBy.isSome = true ∨ r.approvedAt.isSome = true) ↔
      (r.status = Status.approved ∨ r.status = Status.rejected)) ∧
    (r.rejectionReason.isSome = true ↔ r.status = Status.rejected)

instance (r : EventRecord) : Decidable (moderationInvariant r) := by
  unfold moderationInvariant
  infer_instance

/-- Model of `String(n).padStart(2, "0")` for the in-range field values the
formatters receive. -/
def pad2 (n : Int) : String :=
  if n < 10 then "0" ++ toString n else toString n

/-- Embedding of `formatDateForCalendar` from
`src/client/src/lib/calendarUtils.ts` (lines 45-54): the local
year/month/day/hour/minute fields of the instant rendered as
`YYYYMMDDTHHMMSS`; the seconds are always zero in this whole-minute model,
matching every instant the calendar paths produce.  `sysTz` is the offset of
the process whose local getters the function calls. -/
def formatDateForCalendar (ts sysTz : Int) : String :=
  let lt := ts - sysTz
  toString (getUTCFullYear lt) ++ pad2 (getUTCMonth lt + 1) ++ pad2 (getUTCDate lt)
    ++ "T" ++ pad2 (getUTCHours lt) ++ pad2 (getUTCMinutes lt) ++ "00"

/-- Embedding of `formatGoogleCalendarDates` from `calendarUtils.ts` (lines
36-40): when no end date is given it renders `startDate.getTime() + 3600000`
milliseconds, i.e. the start plus 60 minutes. -/
def formatGoogleCalendarDates (startDate : Int) (endDate : Option Int)
    (sysTz : Int) : String :=
  let s := formatDateForCalendar startDate sysTz
  let e := match endDate with
    | some ed => formatDateForCalendar ed sysTz
    | none => formatDateForCalendar (startDate + 60) sysTz
  s ++ "/" ++ e

/-- The five ordinal tokens of the recurrence pattern (`nthDayOptions` in
`src/client/src/pages/SubmitEvent.tsx`). -/
inductive NthOrdinal
  | first
  | second
  | third
  | fourth
  | last
deriving Repr, DecidableEq

/-- Canonical lowercase token of an ordinal, exactly as it appears in the
`nthDayOptions` values. -/
def NthOrdinal.token : NthOrdinal → String
  | NthOrdinal.first => "1st"
  | NthOrdinal.second => "2nd"
  | NthOrdinal.third => "3rd"
  | NthOrdinal.fourth => "4th"
  | NthOrdinal.last => "last"

/-- The seven weekday tokens of the recurrence pattern. -/
inductive WeekdayName
  | monday
  | tuesday
  | wednesday
  | thursday
  | friday
  | saturday
  | sunday
deriving Repr, DecidableEq

/-- Canonical lowercase token of a weekday, exactly as it appears in the
`nthDayOptions` values. -/
def WeekdayName.token : WeekdayName → String
  | WeekdayName.monday => "monday"
  | WeekdayName.tuesday => "tuesday"
  | WeekdayName.wednesday => "wednesday"
  | WeekdayName.thursday => "thursday"
  | WeekdayName.friday => "friday"
  | WeekdayName.saturday => "saturday"
  | WeekdayName.sunday => "sunday"

/-- The serialized pattern string: ordinal and weekday joined by a hyphen,
the exact `value` strings of `nthDayOptions` (e.g. `2nd-monday`). -/
def recurringPatternString (o : NthOrdinal) (w : WeekdayName) : String :=
  o.token ++ "-" ++ w.token

/-- Model of `toLowerCase()`: every character lowered. -/
def toLowerStr (s : String) : String :=
  String.mk (s.data.map Char.toLower)

/-- Modelled from the spec: no ordinal-token parser exists under `src/` (the
client only emits the canonical dropdown values); spec §4.2 requires
case-insensitive recognition of the five canonical tokens. -/
def parseOrdinalToken (s : String) : Option NthOrdinal :=
  match toLowerStr s with
  | "1st" => some NthOrdinal.first
  | "2nd" => some NthOrdinal.second
  | "3rd" => some NthOrdinal.third
  | "4th" => some NthOrdinal.fourth
  | "last" => some NthOrdinal.last
  | _ => none

/-- Modelled from the spec: weekday-token recognizer, case-insensitive over
the seven canonical tokens (spec §4.2). -/
def parseWeekdayToken (s : String) : Option WeekdayName :=
  match toLowerStr s with
  | "monday" => some WeekdayName.monday
  | "tuesday" => some WeekdayName.tuesday
  | "wednesday" => some WeekdayName.wednesday
  | "thursday" => some WeekdayName.thursday
  | "friday" => some WeekdayName.friday
  | "saturday" => some WeekdayName.saturday
  | "sunday" => some WeekdayName.sunday
  | _ => none

/-- Modelled from the spec: deserialization of the pattern string is the
exact inverse of the hyphen join (spec §4.2, round-trip law §8). -/
def parseRecurringPattern (s : String) : Option (NthOrdinal × WeekdayName) :=
  match s.data.splitOn '-' with
  | [os, ws] =>
    match parseOrdinalToken (String.mk os), parseWeekdayToken (String.mk ws) with
    | some o, some w => some (o, w)
    | _, _ => none
  | _ => none

/-- Decimal digit characters of an integer, `String(n)` in JavaScript. -/
def intToChars (n : Int) : List Char :=
  (toString n).data

/-- Character-level model of `JSON.stringify` on an integer array: the
elements' decimal digits joined by commas inside square brackets, no
whitespace (so `[]` for the empty array and e.g. `[1,2,12]` otherwise). -/
def monthsJsonChars (l : List Int) : List Char :=
  '[' :: (List.intercalate [','] (l.map intToChars) ++ [']'])

/-- The stored `recurringMonths` string for a months list. -/
def monthsJson (l : List Int) : String :=
  String.mk (monthsJsonChars l)

/-- Digit-folding accumulator for an unsigned decimal numeral. -/
def digitsToNat : List Char → Nat → Option Nat
  | [], acc => some acc
  | c :: cs, acc =>
    if c.isDigit then digitsToNat cs (acc * 10 + (c.toNat - 48)) else none

/-- Character-level model of parsing one JSON integer token. -/
def parseIntChars (cs : List Char) : Option Int :=
  match cs with
  | [] => none
  | '-' :: rest =>
    if rest = [] then none
    else (digitsToNat rest 0).map (fun n => -(n : Int))
  | _ => (digitsToNat cs 0).map (fun n => (n : Int))

/-- Parsing each comma-separated token as an integer, all of which must
succeed. -/
def parseTokens : List (List Char) → Option (List Int)
  | [] => some []
  | t :: ts =>
    match parseIntChars t, parseTokens ts with
    | some n, some ns => some (n :: ns)
    | _, _ => none

/-- Character-level model of `JSON.parse` restricted to integer arrays, the
only shape the recurrence code ever parses (`getSelectedMonths`, the test
suites): brackets stripped, the comma-separated tokens parsed as integers. -/
def parseMonthsJsonChars (cs : List Char) : Option (List Int) :=
  match cs with
  | [] => none
  | c :: rest =>
    if c = '[' then
      if rest.getLast? = some ']' then
        if rest.dropLast = [] then some []
        else parseTokens ((rest.dropLast).splitOn ',')
      else none
    else none

/-- Parsing a stored `recurringMonths` string back into a months list. -/
def parseMonthsJson (s : String) : Option (List Int) :=
  parseMonthsJsonChars s.data

/-- Embedding of `handleMonthToggle` from `SubmitEvent.tsx` (lines 198-211):
remove the month if present (first occurrence, `indexOf`/`splice`), append
it otherwise, then sort ascending. -/
def handleMonthToggle (currentMonths : List Int) (monthNum : Int) : List Int :=
  let next :=
    if monthNum ∈ currentMonths then currentMonths.erase monthNum
    else currentMonths ++ [monthNum]
  List.insertionSort (fun a b => a ≤ b) next

/-- Canonical months list of the spec (§8): duplicates collapsed, sorted
ascending — the shape `handleMonthToggle` maintains for the stored list. -/
def canonMonths (l : List Int) : List Int :=
  List.insertionSort (fun a b => a ≤ b) l.dedup

/-- Serialization of a recurrence descriptor: the canonical pattern string
paired with the JSON months array as stored in `recurringPattern` /
`recurringMonths`. -/
def serializeDescriptor (o : NthOrdinal) (w : WeekdayName)
    (months : List Int) : String × String :=
  (recurringPatternString o w, monthsJson (canonMonths months))

/-- Modelled from the spec: deserialization of a stored descriptor pair
(spec §4.2 requires it to be the exact inverse of serialization). -/
def deserializeDescriptor (p : String × String) :
    Option (NthOrdinal × WeekdayName × List Int) :=
  match parseRecurringPattern p.1, parseMonthsJson p.2 with
  | some ow, some ms => some (ow.1, ow.2, ms)
  | _, _ => none

/-- Embedding of the recurrence payload the client form sends
(`SubmitEvent.tsx` lines 102-104): the fields are forwarded only when the
recurring box is ticked and the event type is `meeting`, otherwise
`isRecurring` is 0 and pattern/months are null. -/
def clientRecurringPayload (eventType : EventTypeKind) (isRecurring : Bool)
    (pattern months : Option String) : Int × Option String × Option String :=
  if isRecurring ∧ eventType = EventTypeKind.meeting then (1, pattern, months)
  else (0, none, none)

/-- A concrete well-formed submission used to instantiate the theorems at
specific inputs (values taken from the repository's own test corpus). -/
def sampleInput : EventInput :=
  { name := "Monthly Board Meeting"
    description := "Regular monthly board meeting"
    startDate := dateUTC 2025 0 15 0 0
    endDate := none
    startTime := some (14, 0)
    isAllDay := 0
    durationValue := none
    durationUnit := none
    userTimezoneOffset := some 300
    location := "Conference Room A"
    organizerName := "John Doe"
    organizerEmail := "john@example.com"
    eventType := EventTypeKind.meeting
    visibility := Visibility.publicV
    isRecurring := 0
    recurringPattern := none
    recurringMonths := none }

/-- C1: with no duration, `calculateEndDate` returns exactly the naive-UTC
instant of the wall-clock digits (clock defaulting to 00:00) plus the
supplied offset in minutes; calendar rollover is correct: 2025-01-15 14:00
at offset 300 lands on 2025-01-15T19:00:00Z and 2025-12-31 23:00 at offset
300 rolls over to 2026-01-01T04:00:00Z. -/
theorem calculateEndDate_no_duration_adds_offset
    (ld : LocalDate) (t : Option (Int × Int)) (off sysTz : Int) :
    calculateEndDate ld t none none (some off) sysTz =
      dateUTC ld.year ld.month0 ld.day (t.getD (0, 0)).1 (t.getD (0, 0)).2 + off
    ∧ calculateEndDate ⟨2025, 0, 15⟩ (some (14, 0)) none none (some 300) 0 =
        dateUTC 2025 0 15 19 0
    ∧ (getUTCFullYear (calculateEndDate ⟨2025, 0, 15⟩ (some (14, 0)) none none (some 300) 0),
        getUTCMonth (calculateEndDate ⟨2025, 0, 15⟩ (some (14, 0)) none none (some 300) 0),
        getUTCDate (calculateEndDate ⟨2025, 0, 15⟩ (some (14, 0)) none none (some 300) 0),
        getUTCHours (calculateEndDate ⟨2025, 0, 15⟩ (some (14, 0)) none none (some 300) 0),
        getUTCMinutes (calculateEndDate ⟨2025, 0, 15⟩ (some (14, 0)) none none (some 300) 0)) =
        (2025, 0, 15, 19, 0)
    ∧ calculateEndDate ⟨2025, 11, 31⟩ (some (23, 0)) none none (some 300) 0 =
        dateUTC 2026 0 1 4 0
    ∧ (getUTCFullYear (calculateEndDate ⟨2025, 11, 31⟩ (some (23, 0)) none none (some 300) 0),
        getUTCMonth (calculateEndDate ⟨2025, 11, 31⟩ (some (23, 0)) none none (some 300) 0),
        getUTCDate (calculateEndDate ⟨2025, 11, 31⟩ (some (23, 0)) none none (some 300) 0),
        getUTCHours (calculateEndDate ⟨2025, 11, 31⟩ (some (23, 0)) none none (some 300) 0),
        getUTCMinutes (calculateEndDate ⟨2025, 11, 31⟩ (some (23, 0)) none none (some 300) 0)) =
        (2026, 0, 1, 4, 0) := by
  refine ⟨rfl, by decide, by decide, by decide, by decide⟩

/-- C5: for a fixed local date and clock time with no duration, raising the
timezone offset by `n` minutes shifts the normalized start forward by
exactly `n` minutes. -/
theorem calculateEndDate_offset_monotone
    (ld : LocalDate) (t : Option (Int × Int)) (off n sysTz : Int) :
    calculateEndDate ld t none none (some (off + n)) sysTz =
      calculateEndDate ld t none none (some off) sysTz + n := by
  simp [calculateEndDate]
  ring

/-- C4 (counterexample): a clock hour of 25 — outside 0-23 — does not raise
any error on the submission path: the schema checks `startTime` only as a
string, and `Date.UTC` rolls the hour over, so a 25:00 submission with a
two-hour duration is persisted with end 2025-01-16T03:00:00Z. -/
theorem hour25_silently_accepted :
    (eventsSubmit [] ⟨none⟩
        { sampleInput with
            startTime := some (25, 0)
            durationValue := some 2
            durationUnit := some DurationUnit.hours
            userTimezoneOffset := some 0 } 0 0).1.length = 1
    ∧ (submittedRecord ⟨none⟩
        { sampleInput with
            startTime := some (25, 0)
            durationValue := some 2
            durationUnit := some DurationUnit.hours
            userTimezoneOffset := some 0 } 0 0 0).endDate =
        some (dateUTC 2025 0 16 3 0) := by
  constructor
  · rfl
  · decide

/-- C4 (amended): normalization is total for every clock pair — an hour
outside 0-23 is not rejected anywhere but normalized by calendar rollover
(hour `h + 24` on day `d` is hour `h` on day `d + 1`); concretely 25:00 on
2025-01-15 becomes 01:00 on 2025-01-16. -/
theorem calculateEndDate_total_hour_rollover
    (ld : LocalDate) (h m off sysTz : Int) :
    calculateEndDate ld (some (h, m)) none none (some off) sysTz =
      dateUTC ld.year ld.month0 ld.day h m + off
    ∧ dateUTC ld.year ld.month0 ld.day (h + 24) m =
        dateUTC ld.year ld.month0 ld.day h m + 1440
    ∧ dateUTC ld.year ld.month0 (ld.day + 1) h m =
        dateUTC ld.year ld.month0 ld.day h m + 1440
    ∧ calculateEndDate ⟨2025, 0, 15⟩ (some (25, 0)) none none (some 0) 0 =
        dateUTC 2025 0 16 1 0 := by
  refine ⟨rfl, ?_, ?_, by decide⟩
  · simp [dateUTC]
    ring
  · simp [dateUTC]
    ring

/-- C2 (counterexample): a submission giving neither an explicit end nor a
duration is persisted with `endDate` unset — not with an end one hour after
the start. -/
theorem submit_default_end_is_absent :
    (eventsSubmit [] ⟨none⟩ sampleInput 0 0).1 =
      [submittedRecord ⟨none⟩ sampleInput 0 0 0]
    ∧ (submittedRecord ⟨none⟩ sampleInput 0 0 0).endDate = none
    ∧ (submittedRecord ⟨none⟩ sampleInput 0 0 0).endDate ≠
        some ((submittedRecord ⟨none⟩ sampleInput 0 0 0).startDate + 60) := by
  refine ⟨rfl, by decide, by decide⟩

/-- C2 (amended): when no explicit end and no duration are given the
submission path stores no end instant at all; the one-hour default lives
downstream in calendar-link generation, where a missing end renders as the
start plus 60 minutes (`startDate.getTime() + 3600000`). -/
theorem submit_no_duration_leaves_end_unset
    (state : List EventRecord) (ctx : Ctx) (input : EventInput) (now sysTz : Int)
    (hend : input.endDate = none) (hdv : input.durationValue = none) :
    (eventsSubmit state ctx input now sysTz).1 =
      state ++ [submittedRecord ctx input now sysTz state.length]
    ∧ (submittedRecord ctx input now sysTz state.length).endDate = none
    ∧ ∀ startTs : Int,
        formatGoogleCalendarDates startTs none sysTz =
          formatDateForCalendar startTs sysTz ++ "/" ++
            formatDateForCalendar (startTs + 60) sysTz := by
  refine ⟨rfl, ?_, fun startTs => rfl⟩
  simp [submittedRecord, submitEndDate, hdv, hend]

/-- C2 (amended, witness): the concrete no-duration sample. -/
theorem submit_no_duration_leaves_end_unset_witness :
    (submittedRecord ⟨none⟩ sampleInput 0 0 0).endDate = none :=
  (submit_no_duration_leaves_end_unset [] ⟨none⟩ sampleInput 0 0 rfl rfl).2.1

/-- C3 (counterexample): an explicit end 10 hours before the start raises no
error — the record is persisted with that end, so a successful submission
with `endUtc < startUtc` exists. -/
theorem submit_end_before_start_accepted :
    (eventsSubmit [] ⟨none⟩
        { sampleInput with endDate := some (dateUTC 2025 0 15 0 0 - 600) } 0 0).1.length = 1
    ∧ (submittedRecord ⟨none⟩
        { sampleInput with endDate := some (dateUTC 2025 0 15 0 0 - 600) } 0 0 0).endDate =
        some (dateUTC 2025 0 15 0 0 - 600)
    ∧ ∃ e : Int,
        (submittedRecord ⟨none⟩
          { sampleInput with endDate := some (dateUTC 2025 0 15 0 0 - 600) } 0 0 0).endDate = some e
        ∧ e < (submittedRecord ⟨none⟩
            { sampleInput with endDate := some (dateUTC 2025 0 15 0 0 - 600) } 0 0 0).startDate := by
  refine ⟨rfl, by decide, ⟨dateUTC 2025 0 15 0 0 - 600, by decide, by decide⟩⟩

/-- C3 (amended): the submission path never compares end against start — with
no duration the supplied explicit end is persisted unchanged (even one before
the start) and exactly one record is created; no end-before-start
`ValidationError` exists. -/
theorem submit_explicit_end_unchecked
    (state : List EventRecord) (ctx : Ctx) (input : EventInput) (now sysTz : Int)
    (hdv : input.durationValue = none) :
    (eventsSubmit state ctx input now sysTz).1 =
      state ++ [submittedRecord ctx input now sysTz state.length]
    ∧ (submittedRecord ctx input now sysTz state.length).endDate = input.endDate
    ∧ (submittedRecord ctx input now sysTz state.length).startDate = input.startDate := by
  refine ⟨rfl, ?_, rfl⟩
  simp [submittedRecord, submitEndDate, hdv]

/-- C3 (amended, witness): instantiated at the end-before-start sample. -/
theorem submit_explicit_end_unchecked_witness :
    (submittedRecord ⟨none⟩
        { sampleInput with endDate := some (dateUTC 2025 0 15 0 0 - 600) } 0 0 0).endDate =
      some (dateUTC 2025 0 15 0 0 - 600) :=
  (submit_explicit_end_unchecked [] ⟨none⟩
    { sampleInput with endDate := some (dateUTC 2025 0 15 0 0 - 600) } 0 0 rfl).2.1

/-- C7: `events.submit` creates exactly one record; a representative or
admin caller gets an auto-approved record stamped with their id and the
submission time, while every other caller — including the anonymous public
one — gets a pending record with the approver fields unset. -/
theorem submit_status_by_role
    (state : List EventRecord) (ctx : Ctx) (input : EventInput) (now sysTz : Int) :
    (eventsSubmit state ctx input now sysTz).1 =
      state ++ [submittedRecord ctx input now sysTz state.length]
    ∧ (∀ uid : Int,
        ctx.user = some (uid, Role.representative) ∨ ctx.user = some (uid, Role.admin) →
        (submittedRecord ctx input now sysTz state.length).status = Status.approved
        ∧ (submittedRecord ctx input now sysTz state.length).approvedBy = some uid
        ∧ (submittedRecord ctx input now sysTz state.length).approvedAt = some now)
    ∧ (∀ uid : Int, ctx.user = some (uid, Role.user) →
        (submittedRecord ctx input now sysTz state.length).status = Status.pending
        ∧ (submittedRecord ctx input now sysTz state.length).approvedBy = none
        ∧ (submittedRecord ctx input now sysTz state.length).approvedAt = none)
    ∧ (ctx.user = none →
        (submittedRecord ctx input now sysTz state.length).status = Status.pending
        ∧ (submittedRecord ctx input now sysTz state.length).approvedBy = none
        ∧ (submittedRecord ctx input now sysTz state.length).approvedAt = none
        ∧ (submittedRecord ctx input now sysTz state.length).submittedBy = none) := by
  refine ⟨rfl, ?_, ?_, ?_⟩
  · rintro uid (h | h) <;>
      simp [submittedRecord, isRepresentative, h]
  · intro uid h
    simp [submittedRecord, isRepresentative, h]
  · intro h
    simp [submittedRecord, isRepresentative, h]

/-- C7 (witness): a representative submission is auto-approved and stamped;
an anonymous submission is pending with approver fields unset. -/
theorem submit_status_by_role_witness :
    (submittedRecord ⟨some (2, Role.representative)⟩ sampleInput 7 0 0).status = Status.approved
    ∧ (submittedRecord ⟨some (2, Role.representative)⟩ sampleInput 7 0 0).approvedBy = some 2
    ∧ (submittedRecord ⟨none⟩ sampleInput 7 0 0).status = Status.pending
    ∧ (submittedRecord ⟨none⟩ sampleInput 7 0 0).approvedBy = none := by
  have hrep := submit_status_by_role [] ⟨some (2, Role.representative)⟩ sampleInput 7 0
  have hanon := submit_status_by_role [] ⟨none⟩ sampleInput 7 0
  exact ⟨(hrep.2.1 2 (Or.inl rfl)).1, (hrep.2.1 2 (Or.inl rfl)).2.1,
    (hanon.2.2.2 rfl).1, (hanon.2.2.2 rfl).2.1⟩

/-- C10: the public `events.getById` answers `NOT_FOUND` both for a missing
id and for an existing event whose status is not approved, and returns the
event exactly when it is approved — pending and rejected events are
indistinguishable from nonexistent ones here. -/
theorem getById_only_approved_visible
    (state : List EventRecord) (id : Nat) :
    (getEventById state id = none →
      eventsGetById state id = Except.error TrpcError.notFound)
    ∧ (∀ e : EventRecord, getEventById state id = some e →
        e.status ≠ Status.approved →
        eventsGetById state id = Except.error TrpcError.notFound)
    ∧ (∀ e : EventRecord, getEventById state id = some e →
        e.status = Status.approved →
        eventsGetById state id = Except.ok e) := by
  refine ⟨?_, ?_, ?_⟩
  · intro h
    simp [eventsGetById, h]
  · intro e h hs
    simp [eventsGetById, h, hs]
  · intro e h hs
    simp [eventsGetById, h, hs]

/-- C10 (witness): on a store holding one pending and one approved record,
a missing id and the pending id both answer `NOT_FOUND`, the approved id is
returned. -/
theorem getById_only_approved_visible_witness :
    eventsGetById
        [submittedRecord ⟨none⟩ sampleInput 0 0 0,
          submittedRecord ⟨some (2, Role.admin)⟩ sampleInput 0 0 1] 5 =
      Except.error TrpcError.notFound
    ∧ eventsGetById
        [submittedRecord ⟨none⟩ sampleInput 0 0 0,
          submittedRecord ⟨some (2, Role.admin)⟩ sampleInput 0 0 1] 0 =
      Except.error TrpcError.notFound
    ∧ eventsGetById
        [submittedRecord ⟨none⟩ sampleInput 0 0 0,
          submittedRecord ⟨some (2, Role.admin)⟩ sampleInput 0 0 1] 1 =
      Except.ok (submittedRecord ⟨some (2, Role.admin)⟩ sampleInput 0 0 1) := by
  have h := getById_only_approved_visible
    [submittedRecord ⟨none⟩ sampleInput 0 0 0,
      submittedRecord ⟨some (2, Role.admin)⟩ sampleInput 0 0 1]
  exact ⟨(h 5).1 (by decide),
    (h 0).2.1 (submittedRecord ⟨none⟩ sampleInput 0 0 0) (by decide) (by decide),
    (h 1).2.2 (submittedRecord ⟨some (2, Role.admin)⟩ sampleInput 0 0 1) (by decide) (by decide)⟩

/-- C8 (counterexample): rejecting a pending record and then approving it
leaves the rejection reason in place — the approved record still carries
`rejectionReason`, violating the claimed invariant. -/
theorem approve_keeps_stale_rejection_reason :
    (approveEvent (rejectEvent (submittedRecord ⟨some (1, Role.user)⟩ sampleInput 0 0 0)
        5 10 "spam") 6 20).status = Status.approved
    ∧ (approveEvent (rejectEvent (submittedRecord ⟨some (1, Role.user)⟩ sampleInput 0 0 0)
        5 10 "spam") 6 20).rejectionReason = some "spam"
    ∧ ¬ moderationInvariant
        (approveEvent (rejectEvent (submittedRecord ⟨some (1, Role.user)⟩ sampleInput 0 0 0)
          5 10 "spam") 6 20) := by
  refine ⟨by decide, by decide, by decide⟩

/-- C8 (amended): submission and rejection establish the full invariant and
the general update path preserves it; approval always stamps
approver/timestamp and status but carries any existing `rejectionReason`
unchanged, so it preserves the invariant only when no rejection reason is
present — approving a previously rejected event keeps the stale reason. -/
theorem moderation_invariant_by_operation
    (ctx : Ctx) (input : EventInput) (now sysTz : Int) (fid : Nat)
    (r : EventRecord) (a t : Int) (reason : String) (u : EventUpdate) :
    moderationInvariant (submittedRecord ctx input now sysTz fid)
    ∧ moderationInvariant (rejectEvent r a t reason)
    ∧ (moderationInvariant r → moderationInvariant (applyEventUpdate r u))
    ∧ (approveEvent r a t).status = Status.approved
    ∧ (approveEvent r a t).approvedBy = some a
    ∧ (approveEvent r a t).approvedAt = some t
    ∧ (approveEvent r a t).rejectionReason = r.rejectionReason
    ∧ (r.rejectionReason = none → moderationInvariant (approveEvent r a t)) := by
  refine ⟨?_, ?_, ?_, rfl, rfl, rfl, rfl, ?_⟩
  · by_cases h : isRepresentative ctx = true <;>
      simp [submittedRecord, moderationInvariant, h]
  · simp [rejectEvent, moderationInvariant]
  · intro hr
    simpa [applyEventUpdate, moderationInvariant] using hr
  · intro h
    simp [approveEvent, moderationInvariant, h]

/-- C8 (amended, witness): concrete instantiation — the fresh submission and
a rejection satisfy the invariant, and approving a reason-free record does. -/
theorem moderation_invariant_by_operation_witness :
    moderationInvariant (submittedRecord ⟨some (1, Role.user)⟩ sampleInput 0 0 0)
    ∧ moderationInvariant
        (rejectEvent (submittedRecord ⟨some (1, Role.user)⟩ sampleInput 0 0 0) 5 10 "spam")
    ∧ moderationInvariant
        (approveEvent (submittedRecord ⟨some (1, Role.user)⟩ sampleInput 0 0 0) 6 20) := by
  have h := moderation_invariant_by_operation ⟨some (1, Role.user)⟩ sampleInput 0 0 0
    (submittedRecord ⟨some (1, Role.user)⟩ sampleInput 0 0 0) 6 20 "spam"
    ⟨none, none, none, none, none, none, none, none, none⟩
  exact ⟨h.1, (moderation_invariant_by_operation ⟨some (1, Role.user)⟩ sampleInput 0 0 0
    (submittedRecord ⟨some (1, Role.user)⟩ sampleInput 0 0 0) 5 10 "spam"
    ⟨none, none, none, none, none, none, none, none, none⟩).2.1,
    h.2.2.2.2.2.2.2 (by decide)⟩

/-- C9 (counterexample): the server persists supplied recurrence fields even
for a non-meeting event type — a rally submitted with recurrence data keeps
it in the stored record, which therefore does carry a recurrence
descriptor. -/
theorem server_keeps_recurrence_on_rally :
    (submittedRecord ⟨some (2, Role.representative)⟩
        { sampleInput with
            eventType := EventTypeKind.rally
            isRecurring := 1
            recurringPattern := some "2nd-monday"
            recurringMonths := some "[1,2]" } 0 0 0).isRecurring = 1
    ∧ (submittedRecord ⟨some (2, Role.representative)⟩
        { sampleInput with
            eventType := EventTypeKind.rally
            isRecurring := 1
            recurringPattern := some "2nd-monday"
            recurringMonths := some "[1,2]" } 0 0 0).recurringPattern = some "2nd-monday"
    ∧ (submittedRecord ⟨some (2, Role.representative)⟩
        { sampleInput with
            eventType := EventTypeKind.rally
            isRecurring := 1
            recurringPattern := some "2nd-monday"
            recurringMonths := some "[1,2]" } 0 0 0).recurringMonths ≠ none := by
  refine ⟨by decide, by decide, by decide⟩

/-- C9 (amended): the clearing of recurrence fields for non-meeting types is
performed only by the client form, which sends `isRecurring = 0` and null
pattern/months unless the type is `meeting`; the server submission path
persists the recurrence fields exactly as supplied, without consulting the
event type. -/
theorem recurrence_cleared_client_side_only
    (et : EventTypeKind) (b : Bool) (p m : Option String)
    (ctx : Ctx) (input : EventInput) (now sysTz : Int) (fid : Nat) :
    (et ≠ EventTypeKind.meeting → clientRecurringPayload et b p m = (0, none, none))
    ∧ (submittedRecord ctx input now sysTz fid).isRecurring = input.isRecurring
    ∧ (submittedRecord ctx input now sysTz fid).recurringPattern = input.recurringPattern
    ∧ (submittedRecord ctx input now sysTz fid).recurringMonths = input.recurringMonths := by
  refine ⟨?_, rfl, rfl, rfl⟩
  intro h
  simp [clientRecurringPayload, h]

/-- Digit tokens of the twelve legal months parse back to the month,
contain no comma, and are nonempty. -/
theorem month_token_facts (m : Int) (h1 : 1 ≤ m) (h2 : m ≤ 12) :
    parseIntChars (intToChars m) = some m ∧ ',' ∉ intToChars m ∧ intToChars m ≠ [] := by
  interval_cases m <;> exact ⟨by decide, by decide, by decide⟩

/-- Token-wise parsing inverts digit rendering on in-range month lists. -/
theorem parseTokens_map_intToChars (l : List Int) (h : ∀ m ∈ l, 1 ≤ m ∧ m ≤ 12) :
    parseTokens (l.map intToChars) = some l := by
  induction l with
  | nil => rfl
  | cons x xs ih =>
    have hx := month_token_facts x (h x (List.mem_cons_self x xs)).1
      (h x (List.mem_cons_self x xs)).2
    have hxs := ih (fun m hm => h m (List.mem_cons_of_mem x hm))
    simp [parseTokens, hx.1, hxs]

/-- Comma-joining a nonempty first chunk never yields the empty list. -/
theorem intercalate_comma_cons_ne_nil (p : List Char) (ps : List (List Char))
    (hp : p ≠ []) : List.intercalate [','] (p :: ps) ≠ [] := by
  cases ps <;> simp [List.intercalate, List.intersperse, hp]

/-- Round trip of the JSON integer-array encoding on in-range month lists:
parsing the rendered array returns the original list. -/
theorem parseMonthsJsonChars_roundtrip (l : List Int)
    (h : ∀ m ∈ l, 1 ≤ m ∧ m ≤ 12) :
    parseMonthsJsonChars (monthsJsonChars l) = some l := by
  have hg : (List.intercalate [','] (l.map intToChars) ++ [']']).getLast? = some ']' :=
    List.getLast?_concat _
  have hd : (List.intercalate [','] (l.map intToChars) ++ [']']).dropLast =
      List.intercalate [','] (l.map intToChars) := List.dropLast_concat
  cases l with
  | nil => decide
  | cons x xs =>
    have hmem : ∀ t ∈ (x :: xs).map intToChars, ',' ∉ t := by
      intro t ht
      obtain ⟨m, hm, rfl⟩ := List.mem_map.mp ht
      exact (month_token_facts m (h m hm).1 (h m hm).2).2.1
    have hne : List.intercalate [','] ((x :: xs).map intToChars) ≠ [] := by
      have hx0 := (month_token_facts x (h x (List.mem_cons_self x xs)).1
        (h x (List.mem_cons_self x xs)).2).2.2
      simpa using intercalate_comma_cons_ne_nil (intToChars x) (xs.map intToChars) hx0
    have hsplit : (List.intercalate [','] ((x :: xs).map intToChars)).splitOn ',' =
        (x :: xs).map intToChars :=
      List.splitOn_intercalate _ ',' hmem (by simp)
    show parseMonthsJsonChars
        ('[' :: (List.intercalate [','] ((x :: xs).map intToChars) ++ [']'])) =
      some (x :: xs)
    simp only [parseMonthsJsonChars, if_pos rfl, hg, hd, if_neg hne, hsplit]
    exact parseTokens_map_intToChars _ h

/-- Every canonical pattern string parses back to its ordinal and weekday. -/
theorem parseRecurringPattern_roundtrip (o : NthOrdinal) (w : WeekdayName) :
    parseRecurringPattern (recurringPatternString o w) = some (o, w) := by
  cases o <;> cases w <;> decide

/-- Canonicalized month lists stay in range and are sorted and
duplicate-free. -/
theorem canonMonths_facts (l : List Int) (h : ∀ m ∈ l, 1 ≤ m ∧ m ≤ 12) :
    (∀ m ∈ canonMonths l, 1 ≤ m ∧ m ≤ 12) ∧
      List.Sorted (fun a b => a ≤ b) (canonMonths l) ∧ (canonMonths l).Nodup := by
  refine ⟨?_, List.sorted_insertionSort _ _, ?_⟩
  · intro m hm
    exact h m (List.mem_dedup.mp ((List.perm_insertionSort _ _).mem_iff.mp hm))
  · exact (List.perm_insertionSort _ _).nodup_iff.mpr l.nodup_dedup

/-- C6: for every valid ordinal, weekday and months set, deserializing the
serialized descriptor returns the canonical form — the lowercase
hyphen-joined pattern parses back to the pair, and the stored months array
is the ascending duplicate-free JSON integer list; the empty months set is
legal and round-trips to the empty array. -/
theorem descriptor_roundtrip
    (o : NthOrdinal) (w : WeekdayName) (months : List Int)
    (hm : ∀ m ∈ months, 1 ≤ m ∧ m ≤ 12) :
    deserializeDescriptor (serializeDescriptor o w months) =
      some (o, w, canonMonths months)
    ∧ List.Sorted (fun a b => a ≤ b) (canonMonths months)
    ∧ (canonMonths months).Nodup
    ∧ deserializeDescriptor (serializeDescriptor o w []) = some (o, w, []) := by
  have hc := canonMonths_facts months hm
  have hmonths := parseMonthsJsonChars_roundtrip (canonMonths months) hc.1
  refine ⟨?_, hc.2.1, hc.2.2, ?_⟩
  · simp only [deserializeDescriptor, serializeDescriptor, parseMonthsJson, monthsJson,
      parseRecurringPattern_roundtrip, hmonths]
  · have h0 : parseMonthsJsonChars (monthsJsonChars (canonMonths [])) =
        some (canonMonths []) := parseMonthsJsonChars_roundtrip _ (by decide)
    simp only [deserializeDescriptor, serializeDescriptor, parseMonthsJson, monthsJson,
      parseRecurringPattern_roundtrip, h0]
    rfl

/-- C6 (witness): the all-months descriptor of the test corpus serializes to
`2nd-monday` with the full ascending array and deserializes back
identically. -/
theorem descriptor_roundtrip_witness :
    deserializeDescriptor (serializeDescriptor NthOrdinal.second WeekdayName.monday
        [1, 2, 3, 4, 5, 6, 7, 8, 9, 10, 11, 12]) =
      some (NthOrdinal.second, WeekdayName.monday, [1, 2, 3, 4, 5, 6, 7, 8, 9, 10, 11, 12])
    ∧ serializeDescriptor NthOrdinal.second WeekdayName.monday
        [1, 2, 3, 4, 5, 6, 7, 8, 9, 10, 11, 12] =
      ("2nd-monday", "[1,2,3,4,5,6,7,8,9,10,11,12]") := by
  have h := (descriptor_roundtrip NthOrdinal.second WeekdayName.monday
    [1, 2, 3, 4, 5, 6, 7, 8, 9, 10, 11, 12] (by decide)).1
  have hcanon : canonMonths [1, 2, 3, 4, 5, 6, 7, 8, 9, 10, 11, 12] =
      [1, 2, 3, 4, 5, 6, 7, 8, 9, 10, 11, 12] := by decide
  rw [hcanon] at h
  exact ⟨h, by decide⟩

/-- C9 (amended, witness): a rally payload is cleared by the client and the
server copies the sample's recurrence fields verbatim. -/
theorem recurrence_cleared_client_side_only_witness :
    clientRecurringPayload EventTypeKind.rally true (some "2nd-monday") (some "[1,2]") =
      (0, none, none)
    ∧ (submittedRecord ⟨none⟩ sampleInput 0 0 0).recurringPattern = sampleInput.recurringPattern := by
  have h := recurrence_cleared_client_side_only EventTypeKind.rally true
    (some "2nd-monday") (some "[1,2]") ⟨none⟩ sampleInput 0 0 0
  exact ⟨h.1 (by decide), h.2.2.1⟩

end DelawareEvents
